import Mathlib

/-!
Verification of the obsidian-sync server-side sync engine.

Shallow embedding of the server source:
  * `resolveFileConflict`, `resolveDeleteConflict`
    from src/obsidian-sync-server/src/modules/sync/conflict-resolver.service.ts
  * `processCreateUpdate`, `processDeleteOperation`, `requestFileLock`
    from src/obsidian-sync-server/src/modules/sync/sync.service.ts
    (SyncService and FileLockService)
  * `handleFileChange`, `handleRequestLock`
    from src/obsidian-sync-server/src/modules/sync/message-handler.service.ts
  * `storeChunk`, `completeUpload` from the ChunkSessionService source
  * `runWriteQueue` from src/obsidian-sync-server/src/modules/sync/websocket.gateway.ts

Conventions: JavaScript `Date` values and `Date.now()` timestamps are modelled
as `Int` milliseconds; `Date` comparisons (`>`, `<=`) are numeric comparisons
of those values.  Optional string / number fields are `Option String` /
`Option Int`; the JavaScript truthiness tests `previousHash && …` and
`clientTimestamp ? … : …` are modelled exactly (the empty string and the
number 0 are falsy).  SHA-256 (`createHash('sha256')…`) and the storage
service's `calculateHash` are external; they are passed in as an explicit
hash-function parameter, so the theorems hold for every hash function.
-/

/-- `existingFile` record passed to the conflict resolver
(`FileConflictData.existingFile` in conflict-resolver.service.ts). -/
structure ExistingFile where
  id : String
  hash : String
  version : Nat
  mtime : Int
  size : Nat
deriving Repr, DecidableEq

/-- Input of `resolveFileConflict` (interface `FileConflictData`). -/
structure FileConflictData where
  vaultId : String
  filePath : String
  clientContent : String
  clientHash : String
  clientTimestamp : Option Int
  previousHash : Option String
  existingFile : Option ExistingFile
deriving Repr, DecidableEq

/-- The `action` field of a `ConflictResolution`. -/
inductive ConflictAction where
  | accept
  | reject
  | update_mtime_only
  | no_change
deriving Repr, DecidableEq

/-- Output of the conflict resolver (interface `ConflictResolution`). -/
structure ConflictResolution where
  action : ConflictAction
  reason : String
  conflictType : Option String := none
  clientMtime : Option Int := none
  serverMtime : Option Int := none
  currentVersion : Option Nat := none
  currentHash : Option String := none
  updated : Option String := none
deriving Repr, DecidableEq

/-- JavaScript truthiness of an optional string: absent and `""` are falsy.
Models the guard `previousHash && …`. -/
def truthy : Option String → Bool
  | some s => decide (s ≠ "")
  | none => false

/-- `clientTimestamp ? new Date(clientTimestamp) : new Date()`:
a missing or zero (falsy) timestamp is replaced by the current time.
The same pattern appears in the resolver and in `processCreateUpdateOperation`. -/
def tsOrNow : Option Int → Int → Int
  | some t, now => if t = 0 then now else t
  | none, now => now

/-- `ConflictResolverService.resolveFileConflict`
(conflict-resolver.service.ts lines 39-134), decision order as in the source:
no existing file → accept/create; truthy `previousHash` differing from the
stored hash → reject `hash_mismatch`; same content → `update_mtime_only` when
the client time is strictly newer else `no_change`; differing content with no
truthy `previousHash` and client time ≤ stored time → reject
`older_timestamp`; otherwise accept the full update. -/
def resolveFileConflict (data : FileConflictData) (now : Int) : ConflictResolution :=
  match data.existingFile with
  | none =>
      { action := .accept
        reason := "Creating new file"
        updated := some "created" }
  | some f =>
      let clientMtime : Int := tsOrNow data.clientTimestamp now
      if truthy data.previousHash = true ∧ f.hash ≠ data.previousHash.getD "" then
        { action := .reject
          reason := "File has been modified by another client since last read"
          conflictType := some "hash_mismatch"
          currentVersion := some f.version
          currentHash := some f.hash }
      else if f.hash = data.clientHash then
        if f.mtime < clientMtime then
          { action := .update_mtime_only
            reason := "Same content, updating modification time"
            updated := some "mtime_only" }
        else
          { action := .no_change
            reason := "Content and timestamp are up to date"
            updated := some "no_change" }
      else if truthy data.previousHash = false ∧ clientMtime ≤ f.mtime then
        { action := .reject
          reason := "Client version is older than server version"
          conflictType := some "older_timestamp"
          clientMtime := some clientMtime
          serverMtime := some f.mtime
          currentVersion := some f.version
          currentHash := some f.hash }
      else
        { action := .accept
          reason := "Update accepted - client version is newer or hash validation passed"
          updated := some "full" }

/-- Concrete resolver input showing that an empty-string prior hash is
treated as absent: the stored hash `"H2"` differs from the supplied prior
hash `""`, yet the `hash_mismatch` branch is skipped. -/
def emptyPrevData : FileConflictData :=
  { vaultId := "v"
    filePath := "note.md"
    clientContent := "c"
    clientHash := "H2"
    clientTimestamp := some 3
    previousHash := some ""
    existingFile := some { id := "f1", hash := "H2", version := 2, mtime := 5, size := 9 } }

/-- C1 (counterexample to the claim as stated): a claimed prior hash is
supplied (`some ""`), the record exists and its stored hash `"H2"` differs
from that prior hash, yet the resolver does not reject: the JavaScript guard
`previousHash && hash !== previousHash` treats the empty string as absent and
the call falls through to the same-content branch, returning `no_change`. -/
theorem resolveFileConflict_empty_prev_not_rejected :
    emptyPrevData.previousHash = some "" ∧
    Option.map ExistingFile.hash emptyPrevData.existingFile = some "H2" ∧
    (resolveFileConflict emptyPrevData 10).action = ConflictAction.no_change := by
  decide

/-- C1 (amended): whenever a non-empty claimed prior hash is supplied and the
record exists with a stored hash different from that prior hash, the resolver
rejects with conflict type `hash_mismatch`, carrying the current version and
current hash — regardless of the claimed content hash and claimed timestamp
(both are unconstrained here). -/
theorem resolveFileConflict_hash_mismatch (data : FileConflictData)
    (f : ExistingFile) (p : String) (now : Int)
    (hf : data.existingFile = some f) (hp : data.previousHash = some p)
    (hne : p ≠ "") (hdiff : f.hash ≠ p) :
    resolveFileConflict data now =
      { action := .reject
        reason := "File has been modified by another client since last read"
        conflictType := some "hash_mismatch"
        currentVersion := some f.version
        currentHash := some f.hash } := by
  simp only [resolveFileConflict, hf, hp, truthy, Option.getD_some]
  rw [if_pos]
  exact ⟨by simp [hne], hdiff⟩

/-- Witness for C1's amended theorem at a concrete input: prior hash `"H1"`,
stored hash `"H2"`. -/
theorem resolveFileConflict_hash_mismatch_witness :
    resolveFileConflict
      { vaultId := "v", filePath := "note.md", clientContent := "c"
        clientHash := "H3", clientTimestamp := some 99
        previousHash := some "H1"
        existingFile := some { id := "f1", hash := "H2", version := 2, mtime := 5, size := 9 } } 10 =
      { action := .reject
        reason := "File has been modified by another client since last read"
        conflictType := some "hash_mismatch"
        currentVersion := some 2
        currentHash := some "H2" } :=
  resolveFileConflict_hash_mismatch _ _ _ _ rfl rfl (by decide) (by decide)

/-- Concrete resolver input for C10's counterexample: same content, no
timestamp, stored time in the past, but a differing non-empty prior hash. -/
def noTsPrevData : FileConflictData :=
  { vaultId := "v"
    filePath := "note.md"
    clientContent := "c"
    clientHash := "H2"
    clientTimestamp := none
    previousHash := some "G"
    existingFile := some { id := "f1", hash := "H2", version := 2, mtime := 5, size := 9 } }

/-- C10 (counterexample to the claim as stated): a same-content write with no
claimed timestamp and a stored modification time (5) in the past of the
server time (10) is *not* classified `update_mtime_only` when a differing
non-empty prior hash is supplied — the `hash_mismatch` branch fires first. -/
theorem resolveFileConflict_no_ts_prev_mismatch :
    noTsPrevData.clientTimestamp = none ∧
    Option.map ExistingFile.hash noTsPrevData.existingFile = some noTsPrevData.clientHash ∧
    (resolveFileConflict noTsPrevData 10).action = ConflictAction.reject ∧
    (resolveFileConflict noTsPrevData 10).conflictType = some "hash_mismatch" := by
  decide

/-- C10 (amended): with an existing record and a missing-or-zero claimed
timestamp, the resolver substitutes the current server time for the claimed
time (the call is equivalent to one claiming exactly `now`); consequently a
same-content write whose prior hash, if present, matches the stored hash is
classified `update_mtime_only` whenever the stored time is in the past, and a
differing-content write with no prior hash is accepted (never rejected as
`older_timestamp`) whenever the stored time is in the past. -/
theorem resolveFileConflict_defaults_to_now (data : FileConflictData)
    (f : ExistingFile) (now : Int)
    (hf : data.existingFile = some f)
    (hts : data.clientTimestamp = none ∨ data.clientTimestamp = some 0) :
    resolveFileConflict data now =
      resolveFileConflict { data with clientTimestamp := some now } now ∧
    (data.clientHash = f.hash →
      (data.previousHash = none ∨ data.previousHash = some f.hash) →
      f.mtime < now →
      (resolveFileConflict data now).action = ConflictAction.update_mtime_only) ∧
    (data.clientHash ≠ f.hash →
      data.previousHash = none →
      f.mtime < now →
      (resolveFileConflict data now).action = ConflictAction.accept) := by
  have hsub : tsOrNow data.clientTimestamp now = now := by
    rcases hts with h | h <;> simp [h, tsOrNow]
  refine ⟨?_, ?_, ?_⟩
  · have : tsOrNow (some now) now = now := by
      simp [tsOrNow]
    simp [resolveFileConflict, hf, hsub, this]
  · intro hsame hprev hlt
    rcases hprev with h | h
    · simp [resolveFileConflict, hf, hsub, truthy, h, hsame.symm, hlt]
    · simp only [resolveFileConflict, hf, hsub, h, truthy, Option.getD_some]
      rw [if_neg (by simp), if_pos hsame.symm, if_pos hlt]
  · intro hdiff hprev hlt
    have hne : ¬ f.hash = data.clientHash := fun h => hdiff h.symm
    simp [resolveFileConflict, hf, hsub, truthy, hprev, hne, not_le.mpr hlt]

/-- Witness for C10's amended theorem: no timestamp, same content `"H2"`, no
prior hash, stored time 5 < server time 10 — all three conclusions at a
concrete input. -/
theorem resolveFileConflict_defaults_to_now_witness :
    (resolveFileConflict
        { vaultId := "v", filePath := "p", clientContent := "c"
          clientHash := "H2", clientTimestamp := none, previousHash := none
          existingFile := some { id := "f1", hash := "H2", version := 2, mtime := 5, size := 9 } } 10 =
      resolveFileConflict
        { vaultId := "v", filePath := "p", clientContent := "c"
          clientHash := "H2", clientTimestamp := some 10, previousHash := none
          existingFile := some { id := "f1", hash := "H2", version := 2, mtime := 5, size := 9 } } 10) ∧
    ("H2" = "H2" →
      ((none : Option String) = none ∨ (none : Option String) = some "H2") →
      (5 : Int) < 10 →
      (resolveFileConflict
        { vaultId := "v", filePath := "p", clientContent := "c"
          clientHash := "H2", clientTimestamp := none, previousHash := none
          existingFile := some { id := "f1", hash := "H2", version := 2, mtime := 5, size := 9 } } 10).action =
        ConflictAction.update_mtime_only) ∧
    ("H2" ≠ "H2" →
      (none : Option String) = none →
      (5 : Int) < 10 →
      (resolveFileConflict
        { vaultId := "v", filePath := "p", clientContent := "c"
          clientHash := "H2", clientTimestamp := none, previousHash := none
          existingFile := some { id := "f1", hash := "H2", version := 2, mtime := 5, size := 9 } } 10).action =
        ConflictAction.accept) :=
  resolveFileConflict_defaults_to_now _ _ 10 rfl (Or.inl rfl)

/-- A `File` row of the metadata store (Prisma model `File`): path in a
vault with content hash, byte size, content-modified time and version. -/
structure FileRec where
  id : String
  vaultId : String
  path : String
  hash : String
  size : Nat
  mtime : Int
  version : Nat
deriving Repr, DecidableEq

/-- `FileOperationResult` returned by `SyncService` (sync.service.ts). -/
structure FileOperationResult where
  success : Bool
  version : Nat
  hash : String
  currentVersion : Option Nat := none
  currentHash : Option String := none
  conflictType : Option String := none
  clientMtime : Option Int := none
  serverMtime : Option Int := none
  updated : Option String := none
deriving Repr, DecidableEq

/-- The fields of `FileOperationData` that `processCreateUpdateOperation`
reads (the operation type and rename target are only used for routing and
the audit record). -/
structure FileOperationData where
  vaultId : String
  deviceId : String
  filePath : String
  content : String
  previousHash : Option String
  clientTimestamp : Option Int
deriving Repr, DecidableEq

/-- What `SyncService.processCreateUpdateOperation` leaves behind in one
transaction: the operation result, the `File` row afterwards, the resolution
taken (when a record existed) and the final `SyncOperation` status. -/
structure CreateUpdateOutcome where
  result : FileOperationResult
  fileAfter : Option FileRec
  resolution : Option ConflictResolution
  opStatus : String
deriving Repr, DecidableEq

/-- `SyncService.processCreateUpdateOperation` (sync.service.ts lines
371-503).  `hashFn` stands for `storage.calculateHash`; the byte size
`content.length` stands for `storage.calculateSize`.  Oversized content
throws `fileTooLarge` (modelled as `Except.error`).  With an existing record
the resolver decides; `reject` leaves the row unchanged and finalizes the
audit record `conflicted`, `update_mtime_only` bumps only mtime/version,
`no_change` touches nothing, `accept` rewrites hash/size/mtime and bumps the
version.  Without a record a fresh row is created (version 1, the Prisma
default). -/
def processCreateUpdate (hashFn : String → String) (maxFileSize : Nat)
    (data : FileOperationData) (existingFile : Option FileRec) (now : Int) :
    Except String CreateUpdateOutcome :=
  let hash := hashFn data.content
  let contentSize := data.content.length
  if maxFileSize < contentSize then
    .error "File too large"
  else
    match existingFile with
    | some f =>
        let resolution := resolveFileConflict
          { vaultId := data.vaultId
            filePath := data.filePath
            clientContent := data.content
            clientHash := hash
            clientTimestamp := data.clientTimestamp
            previousHash := data.previousHash
            existingFile := some { id := f.id, hash := f.hash, version := f.version
                                   mtime := f.mtime, size := f.size } } now
        match resolution.action with
        | .reject =>
            .ok { result := { success := false, version := f.version, hash := f.hash
                              currentVersion := resolution.currentVersion
                              currentHash := resolution.currentHash
                              conflictType := resolution.conflictType
                              clientMtime := resolution.clientMtime
                              serverMtime := resolution.serverMtime }
                  fileAfter := some f
                  resolution := some resolution
                  opStatus := "conflicted" }
        | .update_mtime_only =>
            let f2 : FileRec :=
              { f with mtime := tsOrNow data.clientTimestamp now, version := f.version + 1 }
            .ok { result := { success := true, version := f2.version, hash := hash
                              updated := resolution.updated }
                  fileAfter := some f2
                  resolution := some resolution
                  opStatus := "applied" }
        | .no_change =>
            .ok { result := { success := true, version := f.version, hash := hash
                              updated := resolution.updated }
                  fileAfter := some f
                  resolution := some resolution
                  opStatus := "applied" }
        | .accept =>
            let f2 : FileRec :=
              { f with hash := hash, size := contentSize
                       mtime := tsOrNow data.clientTimestamp now, version := f.version + 1 }
            .ok { result := { success := true, version := f2.version, hash := hash
                              updated := resolution.updated }
                  fileAfter := some f2
                  resolution := some resolution
                  opStatus := "applied" }
    | none =>
        let f2 : FileRec :=
          { id := "new", vaultId := data.vaultId, path := data.filePath
            hash := hash, size := contentSize
            mtime := tsOrNow data.clientTimestamp now, version := 1 }
        .ok { result := { success := true, version := 1, hash := hash
                          updated := some "created" }
              fileAfter := some f2
              resolution := none
              opStatus := "applied" }

/-- C8: a write whose claimed content hash equals the stored hash, whose
prior hash — if present — matches, and which carries a (nonzero, hence
truthy) claimed timestamp `t`, is classified `no_change` when `t` is not
after the stored time and `update_mtime_only` when it is later; in both
cases the stored content hash and byte size are unchanged, and
`update_mtime_only` changes only the modification time and version. -/
theorem sameContent_mtime_only_or_no_change (hashFn : String → String)
    (maxFileSize : Nat) (data : FileOperationData) (f : FileRec) (now t : Int)
    (hsame : hashFn data.content = f.hash)
    (hprev : data.previousHash = none ∨ data.previousHash = some f.hash)
    (hts : data.clientTimestamp = some t) (htz : t ≠ 0)
    (hsize : data.content.length ≤ maxFileSize) :
    (t ≤ f.mtime →
      processCreateUpdate hashFn maxFileSize data (some f) now =
        .ok { result := { success := true, version := f.version, hash := f.hash
                          updated := some "no_change" }
              fileAfter := some f
              resolution := some { action := .no_change
                                   reason := "Content and timestamp are up to date"
                                   updated := some "no_change" }
              opStatus := "applied" }) ∧
    (f.mtime < t →
      processCreateUpdate hashFn maxFileSize data (some f) now =
        .ok { result := { success := true, version := f.version + 1, hash := f.hash
                          updated := some "mtime_only" }
              fileAfter := some { f with mtime := t, version := f.version + 1 }
              resolution := some { action := .update_mtime_only
                                   reason := "Same content, updating modification time"
                                   updated := some "mtime_only" }
              opStatus := "applied" }) := by
  have hten : tsOrNow data.clientTimestamp now = t := by simp [hts, tsOrNow, htz]
  have hprevskip : ¬ (truthy data.previousHash = true ∧
      f.hash ≠ data.previousHash.getD "") := by
    rcases hprev with h | h <;> simp [h, truthy]
  constructor
  · intro hle
    have hres : resolveFileConflict
        { vaultId := data.vaultId, filePath := data.filePath
          clientContent := data.content, clientHash := hashFn data.content
          clientTimestamp := data.clientTimestamp, previousHash := data.previousHash
          existingFile := some { id := f.id, hash := f.hash, version := f.version
                                 mtime := f.mtime, size := f.size } } now =
        { action := .no_change
          reason := "Content and timestamp are up to date"
          updated := some "no_change" } := by
      simp only [resolveFileConflict, hten]
      rw [if_neg hprevskip, if_pos hsame.symm, if_neg (not_lt.mpr hle)]
    simp only [processCreateUpdate, hres]
    rw [if_neg (not_lt.mpr hsize)]
    simp [hsame]
  · intro hlt
    have hres : resolveFileConflict
        { vaultId := data.vaultId, filePath := data.filePath
          clientContent := data.content, clientHash := hashFn data.content
          clientTimestamp := data.clientTimestamp, previousHash := data.previousHash
          existingFile := some { id := f.id, hash := f.hash, version := f.version
                                 mtime := f.mtime, size := f.size } } now =
        { action := .update_mtime_only
          reason := "Same content, updating modification time"
          updated := some "mtime_only" } := by
      simp only [resolveFileConflict, hten]
      rw [if_neg hprevskip, if_pos hsame.symm, if_pos hlt]
    simp only [processCreateUpdate, hres]
    rw [if_neg (not_lt.mpr hsize)]
    simp [hten, hsame]

/-- Witness for C8 at a concrete input: content `"x"` hashing to the stored
hash `"H"`, claimed time 7 against stored time 5 (and, via the first
conjunct applied vacuously, claimed time 7 is not ≤ 5). -/
theorem sameContent_mtime_only_or_no_change_witness :
    ((7 : Int) ≤ 5 →
      processCreateUpdate (fun _ => "H") 1000
        { vaultId := "v", deviceId := "d", filePath := "p", content := "x"
          previousHash := none, clientTimestamp := some 7 } (some
        { id := "f1", vaultId := "v", path := "p", hash := "H", size := 1
          mtime := 5, version := 4 }) 10 =
        .ok { result := { success := true, version := 4, hash := "H"
                          updated := some "no_change" }
              fileAfter := some { id := "f1", vaultId := "v", path := "p", hash := "H"
                                  size := 1, mtime := 5, version := 4 }
              resolution := some { action := .no_change
                                   reason := "Content and timestamp are up to date"
                                   updated := some "no_change" }
              opStatus := "applied" }) ∧
    ((5 : Int) < 7 →
      processCreateUpdate (fun _ => "H") 1000
        { vaultId := "v", deviceId := "d", filePath := "p", content := "x"
          previousHash := none, clientTimestamp := some 7 } (some
        { id := "f1", vaultId := "v", path := "p", hash := "H", size := 1
          mtime := 5, version := 4 }) 10 =
        .ok { result := { success := true, version := 5, hash := "H"
                          updated := some "mtime_only" }
              fileAfter := some { id := "f1", vaultId := "v", path := "p", hash := "H"
                                  size := 1, mtime := 7, version := 5 }
              resolution := some { action := .update_mtime_only
                                   reason := "Same content, updating modification time"
                                   updated := some "mtime_only" }
              opStatus := "applied" }) :=
  sameContent_mtime_only_or_no_change (fun _ => "H") 1000
    { vaultId := "v", deviceId := "d", filePath := "p", content := "x"
      previousHash := none, clientTimestamp := some 7 }
    { id := "f1", vaultId := "v", path := "p", hash := "H", size := 1
      mtime := 5, version := 4 } 10 7 rfl (Or.inl rfl) rfl (by decide) (by decide)

/-- The server-side `FileChangeMessage` (message-handler.service.ts lines
14-22).  It has no prior-hash field: the wire type the server parses for
`file-change` carries only vault, path, content, hash, timestamp and device
(the client plugin's message type does declare an optional `previousHash`,
which the server therefore never reads). -/
structure FileChangeMessage where
  vaultId : String
  filePath : String
  content : String
  hash : String
  timestamp : Int
  deviceId : String
deriving Repr, DecidableEq

/-- The `file-change-response` the handler returns to the sender; its
`success` field is the literal `true` of the source, not the operation
result's flag. -/
structure FileChangeResponse where
  type : String
  success : Bool
  filePath : String
  hash : String
  version : Nat
deriving Repr, DecidableEq

/-- What `MessageHandlerService.handleFileChange` produces: the broadcast
message (echoing the incoming change to the other devices of the vault), the
direct response, and the `File` row after the operation. -/
structure FileChangeOutcome where
  broadcastMessage : Option FileChangeMessage
  response : FileChangeResponse
  fileAfter : Option FileRec
deriving Repr, DecidableEq

/-- `MessageHandlerService.handleFileChange` (message-handler.service.ts
lines 227-300): recompute the content hash and throw on mismatch with the
declared hash; call `processFileChange` with `operationType: 'UPDATE'`,
`previousHash: undefined` (hard-coded) and the message timestamp; then —
without consulting `result.success` — record a second audit row as
`applied` (not modelled), return the broadcast of the incoming message and a
`file-change-response` with `success: true` and the result's hash/version. -/
def handleFileChange (hashFn : String → String) (maxFileSize : Nat)
    (msg : FileChangeMessage) (existing : Option FileRec) (now : Int) :
    Except String FileChangeOutcome :=
  let calculatedHash := hashFn msg.content
  if msg.hash ≠ calculatedHash then
    .error "hashMismatch"
  else
    match processCreateUpdate hashFn maxFileSize
      { vaultId := msg.vaultId, deviceId := msg.deviceId, filePath := msg.filePath
        content := msg.content, previousHash := none
        clientTimestamp := some msg.timestamp } existing now with
    | .error e => .error e
    | .ok out =>
        .ok { broadcastMessage := some msg
              response := { type := "file-change-response", success := true
                            filePath := msg.filePath, hash := out.result.hash
                            version := out.result.version }
              fileAfter := out.fileAfter }

/-- The stored record of the C5 scenario: `note.md` at hash `"H2"`,
version 2, modified at time 5. -/
def c5Stored : FileRec :=
  { id := "f1", vaultId := "v", path := "note.md", hash := "H2"
    size := 1, mtime := 5, version := 2 }

/-- A hash function for the C5 scenario: the client's new content `"c3"`
hashes to `"H3"`. -/
def c5HashFn : String → String := fun c => if c = "c3" then "H3" else "H0"

/-- The stale client's `file-change` for the C5 scenario, with a timestamp
newer than the stored time.  The prior hash `"H1"` the client holds cannot
even be carried: the server's `FileChangeMessage` has no such field. -/
def c5Msg : FileChangeMessage :=
  { vaultId := "v", filePath := "note.md", content := "c3", hash := "H3"
    timestamp := 10, deviceId := "A" }

/-- The same stale change with a timestamp older than the stored time 5. -/
def c5MsgOld : FileChangeMessage :=
  { vaultId := "v", filePath := "note.md", content := "c3", hash := "H3"
    timestamp := 3, deviceId := "A" }

/-- C5 (the code at the failing input): a stale client writes `note.md` with
hash `"H3"` while the stored hash has moved on to `"H2"`.  The handler
passes `previousHash: undefined`, so no `hash_mismatch` rejection can occur:
with a newer timestamp the stale write is accepted as a full update
(overwriting `"H2"` and answering `success: true`), and with an older
timestamp the operation is internally marked `older_timestamp`/`conflicted`
yet still answered `success: true` with the current hash/version — in
neither case does the response carry `hash_mismatch` or the reject verdict
the claim describes. -/
theorem handleFileChange_never_hash_mismatch :
    handleFileChange c5HashFn 1000 c5Msg (some c5Stored) 11 =
      .ok { broadcastMessage := some c5Msg
            response := { type := "file-change-response", success := true
                          filePath := "note.md", hash := "H3", version := 3 }
            fileAfter := some { id := "f1", vaultId := "v", path := "note.md"
                                hash := "H3", size := 2, mtime := 10, version := 3 } } ∧
    handleFileChange c5HashFn 1000 c5MsgOld (some c5Stored) 11 =
      .ok { broadcastMessage := some c5MsgOld
            response := { type := "file-change-response", success := true
                          filePath := "note.md", hash := "H2", version := 2 }
            fileAfter := some c5Stored } ∧
    (processCreateUpdate c5HashFn 1000
        { vaultId := "v", deviceId := "A", filePath := "note.md", content := "c3"
          previousHash := none, clientTimestamp := some 3 } (some c5Stored) 11).map
      (fun out => out.resolution.map ConflictResolution.conflictType) =
      .ok (some (some "older_timestamp")) := by
  refine ⟨rfl, rfl, rfl⟩

/-- A `FileLock` row of the metadata store (Prisma model `FileLock`;
`fileId` is unique — at most one lock per file). -/
structure FileLock where
  id : String
  vaultId : String
  fileId : String
  deviceId : String
  lockedAt : Int
  expiresAt : Int
deriving Repr, DecidableEq

/-- `LockResult` of `FileLockService` (sync.service.ts).  The `lock` field
carries the lock row of the success cases (the source wraps it in a
`FileLockInfo` view adding `isExpired: false`). -/
structure LockResult where
  success : Bool
  lock : Option FileLock := none
  reason : Option String := none
  expiresAt : Option Int := none
deriving Repr, DecidableEq

/-- `FileLockService.requestFileLock` (sync.service.ts lines 577-722) on the
state relevant to one file: the resolved device row (`none` = device not
found), the file row's id (`none` = file not found), and the unique lock row
for that file if any.  Returns the `LockResult` and the lock row afterwards.
A lock with `expiresAt > now` held by the requester is renewed in place
(`lockedAt := now`, `expiresAt := now + lease`); held by another device the
request fails carrying that lock's expiry; otherwise any expired row is
deleted and a fresh row (`newId`) is inserted with `expiresAt := now +
lease`.  (The unique-constraint catch for concurrent inserts cannot fire in
this single-call model.) -/
def requestFileLock (device : Option String) (file : Option String)
    (existingLock : Option FileLock) (vaultId : String) (now lease : Int)
    (newId : String) : LockResult × Option FileLock :=
  match device with
  | none => ({ success := false, reason := some "Device not found" }, existingLock)
  | some devDbId =>
      match file with
      | none => ({ success := false, reason := some "File not found" }, existingLock)
      | some fileId =>
          match existingLock with
          | some l =>
              if now < l.expiresAt then
                if l.deviceId = devDbId then
                  let renewed : FileLock := { l with expiresAt := now + lease, lockedAt := now }
                  ({ success := true, lock := some renewed
                     expiresAt := some renewed.expiresAt }, some renewed)
                else
                  ({ success := false
                     reason := some "File is locked by another device"
                     expiresAt := some l.expiresAt }, some l)
              else
                let fresh : FileLock := { id := newId, vaultId := vaultId, fileId := fileId
                                          deviceId := devDbId, lockedAt := now
                                          expiresAt := now + lease }
                ({ success := true, lock := some fresh
                   expiresAt := some fresh.expiresAt }, some fresh)
          | none =>
              let fresh : FileLock := { id := newId, vaultId := vaultId, fileId := fileId
                                        deviceId := devDbId, lockedAt := now
                                        expiresAt := now + lease }
              ({ success := true, lock := some fresh
                 expiresAt := some fresh.expiresAt }, some fresh)

/-- C4: lock acquisition on an existing file (device and file resolved, a
lock row present).  Owner renewal before expiry always succeeds and resets
`lockedAt`/`expiresAt` in place; a non-expired lock of another device makes
the acquire fail (carrying that lock's expiry); an expired row is replaced
by a fresh lock expiring at `now + lease`. -/
theorem requestFileLock_cases (devId fileId vaultId newId : String)
    (l : FileLock) (now lease : Int) :
    (now < l.expiresAt → l.deviceId = devId →
      requestFileLock (some devId) (some fileId) (some l) vaultId now lease newId =
        ({ success := true
           lock := some { l with lockedAt := now, expiresAt := now + lease }
           expiresAt := some (now + lease) },
         some { l with lockedAt := now, expiresAt := now + lease })) ∧
    (now < l.expiresAt → l.deviceId ≠ devId →
      requestFileLock (some devId) (some fileId) (some l) vaultId now lease newId =
        ({ success := false
           reason := some "File is locked by another device"
           expiresAt := some l.expiresAt }, some l)) ∧
    (l.expiresAt ≤ now →
      requestFileLock (some devId) (some fileId) (some l) vaultId now lease newId =
        ({ success := true
           lock := some { id := newId, vaultId := vaultId, fileId := fileId
                          deviceId := devId, lockedAt := now, expiresAt := now + lease }
           expiresAt := some (now + lease) },
         some { id := newId, vaultId := vaultId, fileId := fileId
                deviceId := devId, lockedAt := now, expiresAt := now + lease })) := by
  refine ⟨?_, ?_, ?_⟩
  · intro hactive howner
    simp [requestFileLock, hactive, howner]
  · intro hactive hother
    simp [requestFileLock, hactive, hother]
  · intro hexpired
    simp [requestFileLock, not_lt.mpr hexpired]

/-- A lock response frame (`lock-acquired` / `lock-denied`) as built by
`MessageHandlerService.handleRequestLock`. -/
structure LockResponse where
  type : String
  vaultId : Option String := none
  filePath : String
  deviceId : Option String := none
  expiresAt : Option Int := none
  reason : Option String := none
deriving Repr, DecidableEq

/-- `MessageHandlerService.handleRequestLock` (message-handler.service.ts
lines 351-381).  The source branches on `if (lockResult)` — the truthiness
of the *object* returned by `requestFileLock`, not of its `success` field —
so any non-null result (and the service always returns an object) takes the
`lock-acquired` branch, whose `expiresAt` is the literal `Date.now() +
30000`, not the lock's expiry.  The `lock-denied` branch is reachable only
for a null result. -/
def handleRequestLock (lockResult : Option LockResult)
    (vaultId filePath deviceId : String) (now : Int) : LockResponse :=
  match lockResult with
  | some _ =>
      { type := "lock-acquired", vaultId := some vaultId, filePath := filePath
        deviceId := some deviceId, expiresAt := some (now + 30000) }
  | none =>
      { type := "lock-denied", vaultId := some vaultId, filePath := filePath
        reason := some "File already locked" }

/-- The non-expired lock device D1 holds in the C7 scenario (expires at 50). -/
def c7HeldLock : FileLock :=
  { id := "l1", vaultId := "v", fileId := "f1", deviceId := "d1db"
    lockedAt := 0, expiresAt := 50 }

/-- C7 (the code at the failing input): device D2 requests the lock D1 holds
before expiry (now = 10 < 50).  The lock service correctly denies
(`success = false`, carrying the held lock's expiry 50), but
`handleRequestLock` branches on the truthiness of the result object, so D2
is answered `lock-acquired` with a fabricated expiry `now + 30000` — not the
`lock-denied` response carrying the held lock's expiry that the claim
describes. -/
theorem handleRequestLock_always_acquired :
    (requestFileLock (some "d2db") (some "f1") (some c7HeldLock) "v" 10 30 "l2").1.success =
      false ∧
    (requestFileLock (some "d2db") (some "f1") (some c7HeldLock) "v" 10 30 "l2").1.expiresAt =
      some 50 ∧
    handleRequestLock
        (some (requestFileLock (some "d2db") (some "f1") (some c7HeldLock) "v" 10 30 "l2").1)
        "v" "shared.md" "d2" 10 =
      { type := "lock-acquired", vaultId := some "v", filePath := "shared.md"
        deviceId := some "d2", expiresAt := some 30010, reason := none } := by
  refine ⟨rfl, rfl, rfl⟩

/-- `ConflictResolverService.resolveDeleteConflict`
(conflict-resolver.service.ts lines 189-230): no record → accept as already
deleted; truthy `hasActiveLocks` → reject `file_locked`; else accept.  The
`hasActiveLocks` parameter is optional (`hasActiveLocks?: boolean`); an
omitted argument is falsy. -/
def resolveDeleteConflict (vaultId filePath : String) (existingFile : Option FileRec)
    (hasActiveLocks : Option Bool) : ConflictResolution :=
  match existingFile with
  | none =>
      { action := .accept
        reason := "File already does not exist"
        updated := some "already_deleted" }
  | some _ =>
      if hasActiveLocks.getD false = true then
        { action := .reject
          reason := "Cannot delete file with active locks"
          conflictType := some "file_locked" }
      else
        { action := .accept
          reason := "Delete operation is valid" }

/-- What `SyncService.processDeleteOperation` leaves behind: the resolution
taken, the result (`none` when the thrown rejection propagates), the thrown
error, the `File` row afterwards, the lock rows afterwards and the final
`SyncOperation` status (on the reject path the status is first set
`conflicted`, then the catch block overwrites it with `failed` while
rethrowing). -/
structure DeleteOutcome where
  resolution : ConflictResolution
  result : Option FileOperationResult
  thrown : Option String
  fileAfter : Option FileRec
  locksAfter : List FileLock
  opStatus : String
deriving Repr, DecidableEq

/-- `SyncService.processDeleteOperation` (sync.service.ts lines 208-284).
The resolver is called with only three arguments —
`resolveDeleteConflict(vaultId, filePath, existingFile)` — so
`hasActiveLocks` is `undefined` and the lock state never reaches the
resolver.  On accept with an existing record, the row is deleted and every
lock row of that file is deleted with it. -/
def processDeleteOperation (vaultId filePath : String) (existingFile : Option FileRec)
    (locks : List FileLock) : DeleteOutcome :=
  let resolution := resolveDeleteConflict vaultId filePath existingFile none
  if resolution.action = ConflictAction.reject then
    { resolution := resolution, result := none, thrown := some resolution.reason
      fileAfter := existingFile, locksAfter := locks, opStatus := "failed" }
  else
    match existingFile with
    | some f =>
        { resolution := resolution
          result := some { success := true, version := 0, hash := "" }
          thrown := none
          fileAfter := none
          locksAfter := locks.filter (fun l => l.fileId ≠ f.id)
          opStatus := "applied" }
    | none =>
        { resolution := resolution
          result := some { success := true, version := 0, hash := "" }
          thrown := none
          fileAfter := none
          locksAfter := locks
          opStatus := "applied" }

/-- The record and foreign active lock of the C6 counterexample. -/
def c6File : FileRec :=
  { id := "f1", vaultId := "v", path := "a.md", hash := "H", size := 3
    mtime := 5, version := 2 }

/-- An active (expires at 100 > now = 10) lock on `c6File` held by a device
other than the requester. -/
def c6Lock : FileLock :=
  { id := "l1", vaultId := "v", fileId := "f1", deviceId := "otherDevice"
    lockedAt := 0, expiresAt := 100 }

/-- C6 (counterexample to the claim as stated): the record exists and an
active lock on it (expiry 100 > now 10) is held by another device, yet the
delete is accepted — no `file_locked` rejection — and the lock row is simply
deleted along with the record. -/
theorem processDelete_accepts_despite_lock :
    (10 : Int) < c6Lock.expiresAt ∧
    c6Lock.deviceId ≠ "requester" ∧
    c6Lock.fileId = c6File.id ∧
    (processDeleteOperation "v" "a.md" (some c6File) [c6Lock]).resolution.conflictType ≠
      some "file_locked" ∧
    (processDeleteOperation "v" "a.md" (some c6File) [c6Lock]).result =
      some { success := true, version := 0, hash := "" } ∧
    (processDeleteOperation "v" "a.md" (some c6File) [c6Lock]).locksAfter = [] := by
  decide

/-- C6 (amended): the delete path never rejects.  If no record exists the
delete is accepted as a no-op (`already_deleted`); if a record exists it is
accepted unconditionally — `processDeleteOperation` passes no lock
information to the resolver (whose `file_locked` branch fires only on a
truthy `hasActiveLocks` argument), so active locks held by other devices
never cause a rejection and are instead deleted together with the record. -/
theorem processDelete_cases (vaultId filePath : String)
    (existing : Option FileRec) (locks : List FileLock) :
    (existing = none →
      processDeleteOperation vaultId filePath existing locks =
        { resolution := { action := .accept
                          reason := "File already does not exist"
                          updated := some "already_deleted" }
          result := some { success := true, version := 0, hash := "" }
          thrown := none
          fileAfter := none
          locksAfter := locks
          opStatus := "applied" }) ∧
    (∀ f, existing = some f →
      processDeleteOperation vaultId filePath existing locks =
        { resolution := { action := .accept, reason := "Delete operation is valid" }
          result := some { success := true, version := 0, hash := "" }
          thrown := none
          fileAfter := none
          locksAfter := locks.filter (fun l => l.fileId ≠ f.id)
          opStatus := "applied" }) := by
  constructor
  · intro h
    subst h
    rfl
  · intro f h
    subst h
    simp [processDeleteOperation, resolveDeleteConflict]

/-- `Map.has` on an association list keyed by chunk index. -/
def assocHas {α : Type} (m : List (Nat × α)) (k : Nat) : Bool :=
  m.any (fun p => p.1 == k)

/-- `Map.get` on an association list keyed by chunk index. -/
def assocGet {α : Type} (m : List (Nat × α)) (k : Nat) : Option α :=
  (m.find? (fun p => p.1 == k)).map (fun p => p.2)

/-- `Map.set` on an association list keyed by chunk index: overwrite in
place when present, append otherwise. -/
def assocSet {α : Type} (m : List (Nat × α)) (k : Nat) (v : α) : List (Nat × α) :=
  if assocHas m k then m.map (fun p => if p.1 == k then (k, v) else p)
  else m ++ [(k, v)]

/-- An in-memory chunk upload session (interface `ChunkSession` of the
ChunkSessionService source).  Chunk payloads (`Buffer`) are byte lists. -/
structure ChunkSession where
  filePath : String
  fileHash : String
  fileSize : Nat
  totalChunks : Nat
  receivedChunks : List (Nat × List Nat)
  chunkHashes : List (Nat × String)
  startTime : Int
  clientId : String
  vaultId : String
  lastActivity : Int
deriving Repr, DecidableEq

/-- Result of `ChunkSessionService.storeChunk`. -/
structure StoreResult where
  success : Bool
  message : Option String := none
deriving Repr, DecidableEq

/-- `ChunkSessionService.storeChunk` (its source lines 83-120): missing
session fails; a chunk whose recomputed hash differs from the declared chunk
hash is rejected without touching the session; otherwise the chunk and its
hash are stored under the index and `lastActivity` is refreshed. -/
def storeChunk (hashFn : List Nat → String) (sess : Option ChunkSession)
    (chunkIndex : Nat) (chunkData : List Nat) (chunkHash : String) (now : Int) :
    StoreResult × Option ChunkSession :=
  match sess with
  | none => ({ success := false, message := some "Session not found" }, none)
  | some s =>
      let calculatedHash := hashFn chunkData
      if calculatedHash ≠ chunkHash then
        ({ success := false, message := some "Chunk hash mismatch" }, some s)
      else
        ({ success := true },
         some { s with receivedChunks := assocSet s.receivedChunks chunkIndex chunkData
                       chunkHashes := assocSet s.chunkHashes chunkIndex chunkHash
                       lastActivity := now })

/-- Result of `ChunkSessionService.completeUpload`. -/
structure CompleteResult where
  success : Bool
  message : Option String := none
  missingChunks : Option (List Nat) := none
  fileHash : Option String := none
  fileSize : Option Nat := none
deriving Repr, DecidableEq

/-- The missing-index scan of `completeUpload`: every `i` in
`[0, totalChunks)` with no received chunk, in increasing order. -/
def missingOf (s : ChunkSession) : List Nat :=
  (List.range s.totalChunks).filter (fun i => !(assocHas s.receivedChunks i))

/-- The chunk concatenation of `completeUpload`: received chunks in index
order (every index present when this is reached; an absent index contributes
nothing). -/
def assembleChunks (s : ChunkSession) : List Nat :=
  ((List.range s.totalChunks).map (fun i => (assocGet s.receivedChunks i).getD [])).flatten

/-- `ChunkSessionService.completeUpload` (its source lines 125-200): missing
session fails; missing indices fail, naming them; the concatenation must
have the declared size and hash; only on full success is the blob handed to
storage and the session deleted — every failure return leaves the session in
the map untouched. -/
def completeUpload (hashFn : List Nat → String) (sess : Option ChunkSession) :
    CompleteResult × Option ChunkSession :=
  match sess with
  | none => ({ success := false, message := some "Session not found" }, none)
  | some s =>
      let missingChunks := missingOf s
      if missingChunks ≠ [] then
        ({ success := false, message := some "Missing chunks"
           missingChunks := some missingChunks }, some s)
      else
        let finalBuffer := assembleChunks s
        if finalBuffer.length ≠ s.fileSize then
          ({ success := false
             message := some ("File size mismatch: expected " ++ toString s.fileSize ++
               ", got " ++ toString finalBuffer.length) }, some s)
        else
          let calculatedHash := hashFn finalBuffer
          if calculatedHash ≠ s.fileHash then
            ({ success := false
               message := some "Final file hash verification failed" }, some s)
          else
            ({ success := true, fileHash := some calculatedHash
               fileSize := some finalBuffer.length }, none)

/-- C2: chunks are individually hash-verified at store time (a successful
`storeChunk` implies the recomputed hash matched); completion of a session
succeeds exactly when every index in `[0, totalChunks)` has been stored and
the concatenation in index order has the declared size and the declared
hash; and when indices are missing, completion fails naming exactly the set
of missing indices. -/
theorem chunk_completion_iff (hashFn : List Nat → String) (s : ChunkSession) :
    (∀ sess idx data h now,
      (storeChunk hashFn sess idx data h now).1.success = true → hashFn data = h) ∧
    ((completeUpload hashFn (some s)).1.success = true ↔
      ((∀ i, i < s.totalChunks → assocHas s.receivedChunks i = true) ∧
        (assembleChunks s).length = s.fileSize ∧
        hashFn (assembleChunks s) = s.fileHash)) ∧
    (missingOf s ≠ [] →
      ((completeUpload hashFn (some s)).1 =
        { success := false, message := some "Missing chunks"
          missingChunks := some (missingOf s) } ∧
       ∀ i, (i ∈ missingOf s ↔ (i < s.totalChunks ∧ assocHas s.receivedChunks i = false)))) := by
  have hmem : ∀ i, (i ∈ missingOf s ↔ (i < s.totalChunks ∧ assocHas s.receivedChunks i = false)) := by
    intro i
    simp [missingOf, List.mem_filter, List.mem_range]
  have hempty : missingOf s = [] ↔
      (∀ i, i < s.totalChunks → assocHas s.receivedChunks i = true) := by
    constructor
    · intro h i hi
      by_contra hno
      have : i ∈ missingOf s := (hmem i).mpr ⟨hi, by simpa using hno⟩
      simp [h] at this
    · intro h
      by_contra hne
      rcases List.exists_mem_of_ne_nil _ hne with ⟨i, hi⟩
      rcases (hmem i).mp hi with ⟨hlt, hfalse⟩
      rw [h i hlt] at hfalse
      cases hfalse
  refine ⟨?_, ?_, ?_⟩
  · intro sess idx data h now
    cases sess with
    | none => simp [storeChunk]
    | some s2 =>
        simp only [storeChunk]
        by_cases hh : hashFn data = h
        · intro _
          exact hh
        · rw [if_pos hh]
          simp
  · by_cases hmiss : missingOf s = []
    · rw [show (completeUpload hashFn (some s)) = _ from rfl]
      simp only [completeUpload, hmiss]
      rw [if_neg (by simp)]
      by_cases hsize : (assembleChunks s).length = s.fileSize
      · by_cases hhash : hashFn (assembleChunks s) = s.fileHash
        · rw [if_neg (by simpa using hsize), if_neg (by simpa using hhash)]
          simp [hsize, hhash]
          exact hempty.mp hmiss
        · rw [if_neg (by simpa using hsize), if_pos hhash]
          simp [hhash]
      · rw [if_pos hsize]
        simp [hsize]
    · simp only [completeUpload]
      rw [if_pos hmiss]
      simp only [Bool.false_eq_true, false_iff]
      intro hc
      exact hmiss (hempty.mpr hc.1)
  · intro hne
    refine ⟨?_, hmem⟩
    simp only [completeUpload]
    rw [if_pos hne]

/-- C9 (amended): every failing completion — missing chunks, size mismatch,
and also the final hash mismatch — leaves the session (with all its stored
chunks) in the map untouched so the transfer can be retried; the session is
removed only on a fully successful completion. -/
theorem completeUpload_failure_keeps_session (hashFn : List Nat → String)
    (s : ChunkSession) :
    ((completeUpload hashFn (some s)).1.success = false →
      (completeUpload hashFn (some s)).2 = some s) ∧
    ((completeUpload hashFn (some s)).1.success = true →
      (completeUpload hashFn (some s)).2 = none) := by
  simp only [completeUpload]
  by_cases hmiss : missingOf s ≠ []
  · rw [if_pos hmiss]
    simp
  · rw [if_neg hmiss]
    by_cases hsize : (assembleChunks s).length ≠ s.fileSize
    · rw [if_pos hsize]
      simp
    · rw [if_neg hsize]
      by_cases hhash : hashFn (assembleChunks s) ≠ s.fileHash
      · rw [if_pos hhash]
        simp
      · rw [if_neg hhash]
        simp

/-- A complete, correctly sized session whose assembled hash will not match
its declared total hash `"G"` under the constant hash function `"X"`. -/
def hardMismatchSession : ChunkSession :=
  { filePath := "big.bin", fileHash := "G", fileSize := 2, totalChunks := 1
    receivedChunks := [(0, [1, 2])], chunkHashes := [(0, "c0")]
    startTime := 0, clientId := "d", vaultId := "v", lastActivity := 0 }

/-- C9 (counterexample to the claim as stated): a final hard mismatch — all
chunks present, size matching, assembled hash `"X"` differing from the
declared `"G"` — does **not** destroy the session: `completeUpload` returns
the failure and the session is still in the map, unchanged. -/
theorem completeUpload_hard_mismatch_keeps_session :
    (completeUpload (fun _ => "X") (some hardMismatchSession)).1 =
      { success := false, message := some "Final file hash verification failed" } ∧
    (completeUpload (fun _ => "X") (some hardMismatchSession)).2 =
      some hardMismatchSession := by
  refine ⟨rfl, rfl⟩

/-- A settled promise: fulfilled or rejected.  Write-queue tasks are modelled
by their settlement outcome only — the FIFO discipline of
`enqueueWriteOperation` does not depend on what the tasks do. -/
inductive Settled where
  | fulfilled
  | rejected
deriving Repr, DecidableEq

/-- An observable event of the write queue: task `i` starts running, or task
`i` settles with outcome `r`. -/
inductive QueueEvent where
  | start (i : Nat)
  | settle (i : Nat) (r : Settled)
deriving Repr, DecidableEq

/-- `queue.then(task)`: when the chained-on promise is rejected the task is
skipped and the rejection propagates; when it is fulfilled the task runs
(emitting its start and settle events) and the resulting promise settles
with the task's outcome. -/
def thenRun (p : Settled) (i : Nat) (outcome : Settled) : Settled × List QueueEvent :=
  match p with
  | .rejected => (.rejected, [])
  | .fulfilled => (outcome, [QueueEvent.start i, QueueEvent.settle i outcome])

/-- `run.catch(() => {})` of `enqueueWriteOperation`: the queue head kept
for the next enqueue is always fulfilled, so a failing task cannot make the
following `then` skip later tasks. -/
def catchIgnore : Settled → Settled
  | .fulfilled => .fulfilled
  | .rejected => .fulfilled

/-- The chain built by successive `enqueueWriteOperation` calls
(websocket.gateway.ts lines 242-262), starting from the given queue head:
for each task, `run = queue.then(task)` and the stored head becomes
`run.catch(() => {})`.  Returns the event trace of executing the chain. -/
def runQueueFrom (queue : Settled) (i : Nat) : List Settled → List QueueEvent
  | [] => []
  | o :: rest =>
      (thenRun queue i o).2 ++
        runQueueFrom (catchIgnore (thenRun queue i o).1) (i + 1) rest

/-- The write queue of the gateway: `writeOpQueue` starts as
`Promise.resolve()`, tasks numbered from 0 in enqueue order. -/
def runWriteQueue (outcomes : List Settled) : List QueueEvent :=
  runQueueFrom .fulfilled 0 outcomes

theorem catchIgnore_eq (r : Settled) : catchIgnore r = .fulfilled := by
  cases r <;> rfl

theorem runQueueFrom_cons (k : Nat) (o : Settled) (rest : List Settled) :
    runQueueFrom .fulfilled k (o :: rest) =
      QueueEvent.start k :: QueueEvent.settle k o ::
        runQueueFrom .fulfilled (k + 1) rest := by
  simp [runQueueFrom, thenRun, catchIgnore_eq]

theorem runQueueFrom_length (outcomes : List Settled) :
    ∀ k, (runQueueFrom .fulfilled k outcomes).length = 2 * outcomes.length := by
  induction outcomes with
  | nil => intro k; rfl
  | cons o rest ih =>
      intro k
      rw [runQueueFrom_cons]
      simp [ih (k + 1)]
      omega

theorem runQueueFrom_start (outcomes : List Settled) :
    ∀ k i, i < outcomes.length →
      (runQueueFrom .fulfilled k outcomes)[2 * i]? = some (QueueEvent.start (k + i)) := by
  induction outcomes with
  | nil => intro k i hi; cases hi
  | cons o rest ih =>
      intro k i hi
      rw [runQueueFrom_cons]
      cases i with
      | zero => rfl
      | succ i =>
          have h2 : 2 * (i + 1) = 2 * i + 1 + 1 := by ring
          rw [h2]
          simp only [List.getElem?_cons_succ]
          rw [ih (k + 1) i (by simpa using hi)]
          congr 2
          omega

theorem runQueueFrom_settle (outcomes : List Settled) :
    ∀ k i, i < outcomes.length →
      (runQueueFrom .fulfilled k outcomes)[2 * i + 1]? =
        some (QueueEvent.settle (k + i) (outcomes.getD i Settled.fulfilled)) := by
  induction outcomes with
  | nil => intro k i hi; cases hi
  | cons o rest ih =>
      intro k i hi
      rw [runQueueFrom_cons]
      cases i with
      | zero => simp [List.getD]
      | succ i =>
          have h2 : 2 * (i + 1) + 1 = (2 * i + 1) + 1 + 1 := by ring
          rw [h2]
          simp only [List.getElem?_cons_succ]
          rw [ih (k + 1) i (by simpa using hi)]
          have hk : k + 1 + i = k + (i + 1) := by omega
          have hd : rest.getD i Settled.fulfilled = (o :: rest).getD (i + 1) Settled.fulfilled := by
            simp [List.getD]
          rw [hk, hd]

/-- C3: the write-queue trace for any outcome vector is strictly sequential
in enqueue order.  Reading positions: element `2*i` of the trace is the
start of the `i`-th enqueued task and element `2*i + 1` its settlement, so
(a) each task's settlement immediately follows its start — no other task's
event lies between, i.e. no two tasks run concurrently; (b) for `i < j`
task `i` settles at position `2*i + 1 < 2*j`, the position where task `j`
starts — a task starts only after every previously enqueued task has
settled; (c) this holds for *every* outcome vector, in particular when
earlier tasks are `rejected`: the `catch` that re-arms the queue head keeps
a failing task from preventing later tasks from running. -/
theorem writeQueue_fifo (outcomes : List Settled) (i j : Nat)
    (hij : i < j) (hj : j < outcomes.length) :
    (runWriteQueue outcomes).length = 2 * outcomes.length ∧
    (runWriteQueue outcomes)[2 * i]? = some (QueueEvent.start i) ∧
    (runWriteQueue outcomes)[2 * i + 1]? =
      some (QueueEvent.settle i (outcomes.getD i Settled.fulfilled)) ∧
    (runWriteQueue outcomes)[2 * j]? = some (QueueEvent.start j) ∧
    2 * i + 1 < 2 * j := by
  have hi : i < outcomes.length := lt_trans hij hj
  refine ⟨runQueueFrom_length outcomes 0, ?_, ?_, ?_, by omega⟩
  · simpa using runQueueFrom_start outcomes 0 i hi
  · simpa using runQueueFrom_settle outcomes 0 i hi
  · simpa using runQueueFrom_start outcomes 0 j hj

/-- Witness for C3 at a concrete enqueue sequence `O1, O2, O3` in which the
first task fails: `O1` (rejected) still starts and settles at positions 0
and 1, and `O2` starts at position 2 — after `O1` settled. -/
theorem writeQueue_fifo_witness :
    (runWriteQueue [Settled.rejected, Settled.fulfilled, Settled.fulfilled]).length = 6 ∧
    (runWriteQueue [Settled.rejected, Settled.fulfilled, Settled.fulfilled])[0]? =
      some (QueueEvent.start 0) ∧
    (runWriteQueue [Settled.rejected, Settled.fulfilled, Settled.fulfilled])[1]? =
      some (QueueEvent.settle 0 Settled.rejected) ∧
    (runWriteQueue [Settled.rejected, Settled.fulfilled, Settled.fulfilled])[2]? =
      some (QueueEvent.start 1) ∧
    1 < 2 :=
  writeQueue_fifo [Settled.rejected, Settled.fulfilled, Settled.fulfilled] 0 1
    (by decide) (by decide)
